import Mathlib

/-!
Verification of the ArmNN loaded-network execution engine against the
repository sources.  The pure functions present among the sources
(TosaMappings.cpp, ExecuteNetworkProgramOptions.cpp) are embedded directly.
The LoadedNetwork implementation and the Cl import tensor-handle factory are
not among the sources (only their headers, tests and callers are); those
operations are modelled from the specification, as marked in the doc
comments of the corresponding definitions.
-/

namespace Armnn

/-! ## Cl import tensor-handle factory (claim C1) -/

/-- Memory sources a tensor import can come from (armnn::MemorySource). -/
inductive MemorySource
  | Undefined
  | Malloc
  | DmaBuf
  | DmaBufProtected
deriving DecidableEq

/-- Tensor data layouts (armnn::DataLayout). -/
inductive DataLayout
  | NCHW
  | NHWC
deriving DecidableEq

/-- Tensor metadata: the shape and an element-type code (armnn::TensorInfo
restricted to the fields the modelled operations consult). -/
structure TensorInfo where
  shape : List Nat
  dataTypeCode : Nat
deriving DecidableEq

/-- The armnn exception kinds raised by the modelled operations. -/
inductive ArmnnError
  | invalidArgument (msg : String)
  | memoryImport (msg : String)
deriving DecidableEq

/-- An imported tensor handle produced by the Cl import factory: it carries
the import flags of the factory and the shape of the tensor. -/
structure ClImportTensorHandle where
  importFlags : List MemorySource
  shape : List Nat
deriving DecidableEq

/-- The Cl import tensor-handle factory, constructed from the lists of
acceptable import and export memory sources. -/
structure ClImportTensorHandleFactory where
  importFlags : List MemorySource
  exportFlags : List MemorySource
deriving DecidableEq

/-- Modelled from the spec: the body of
ClImportTensorHandleFactory::CreateTensorHandle is not among the sources
(only its test, ClImportTensorHandleFactoryTests.cpp, is).  Per the spec, an
import-capable factory must reject a request for a memory-manager-backed
(managed) handle with an explicit InvalidArgumentException instead of
silently allocating managed memory; an unmanaged request wraps the tensor
into an import handle carrying the import flags of the factory.  The
optional data layout stands for the two overloads exercised by the test. -/
def ClImportTensorHandleFactory.CreateTensorHandle
    (f : ClImportTensorHandleFactory) (info : TensorInfo)
    (layout : Option DataLayout) (isManaged : Bool) :
    Except ArmnnError ClImportTensorHandle :=
  if isManaged then
    .error (.invalidArgument "Create managed Imported tensor is not supported")
  else
    .ok { importFlags := f.importFlags, shape := info.shape }

/-! ## GetBackendIDs (claim C10) -/

/-- Backend identifier (armnn::BackendId).  Modelled from the spec: the
BackendId class is outside the sources; it is the stable string id of a
backend, compared by string equality.  Constructing a BackendId from a
Compute enumerator goes through GetComputeDeviceAsCString, whose default
case (hit by Compute::Undefined) returns the string "Unknown". -/
structure BackendId where
  name : String
deriving DecidableEq

/-- The backend id of armnn::Compute::Undefined: GetComputeDeviceAsCString
returns "Unknown" for it (the default switch case). -/
def undefinedBackendId : BackendId := ⟨"Unknown"⟩

/-- The marking loop of RemoveDuplicateDevices
(ExecuteNetworkProgramOptions.cpp): the head entry is kept and every later
entry equal to it is overwritten with the Undefined device, after which the
loop continues on the tail. -/
def markDuplicateDevices : List BackendId → List BackendId
  | [] => []
  | d :: ds =>
      d :: markDuplicateDevices (ds.map (fun x => if x = d then undefinedBackendId else x))
termination_by l => l.length
decreasing_by simp [List.length_map]

/-- RemoveDuplicateDevices (ExecuteNetworkProgramOptions.cpp): marks later
duplicate devices as Undefined, then erases every Undefined entry. -/
def RemoveDuplicateDevices (computeDevices : List BackendId) : List BackendId :=
  (markDuplicateDevices computeDevices).filter (fun d => d ≠ undefinedBackendId)

/-- GetBackendIDs (ExecuteNetworkProgramOptions.cpp): converts the backend
strings to backend ids and removes duplicate entries. -/
def GetBackendIDs (backendStrings : List String) : List BackendId :=
  RemoveDuplicateDevices (backendStrings.map BackendId.mk)

/-- The behaviour the claim states for GetBackendIDs: the distinct entries
of the input, each kept at the position of its first occurrence. -/
def firstOccurrences : List BackendId → List BackendId
  | [] => []
  | d :: ds => d :: firstOccurrences (ds.filter (fun x => x ≠ d))
termination_by l => l.length
decreasing_by
  exact Nat.lt_succ_of_le (List.length_filter_le _ _)

/-- Overwriting every entry equal to the Undefined device with the
Undefined device changes nothing. -/
lemma map_mark_undefined (ds : List BackendId) :
    ds.map (fun x => if x = undefinedBackendId then undefinedBackendId else x) = ds := by
  have h : (fun x => if x = undefinedBackendId then undefinedBackendId else x) = id := by
    funext x
    by_cases hx : x = undefinedBackendId <;> simp [hx]
  rw [h, List.map_id]

/-- Filtering Undefined out of a list whose entries equal to the head were
marked Undefined is the same as filtering Undefined and the head out. -/
lemma map_mark_filter (d : BackendId) (hd : d ≠ undefinedBackendId) (ds : List BackendId) :
    (ds.map (fun x => if x = d then undefinedBackendId else x)).filter
        (fun x => x ≠ undefinedBackendId) =
    (ds.filter (fun x => x ≠ undefinedBackendId)).filter (fun x => x ≠ d) := by
  rw [List.filter_map, List.filter_filter]
  have hpred : List.filter ((fun x => decide (x ≠ undefinedBackendId)) ∘
      (fun x => if x = d then undefinedBackendId else x)) ds =
      List.filter (fun x => decide (x ≠ d) && decide (x ≠ undefinedBackendId)) ds := by
    apply List.filter_congr
    intro a _
    by_cases had : a = d
    · subst had
      simp
    · simp [Function.comp, had]
  rw [hpred]
  have hid : List.map (fun x => if x = d then undefinedBackendId else x)
      (List.filter (fun x => decide (x ≠ d) && decide (x ≠ undefinedBackendId)) ds) =
      List.map id (List.filter (fun x => decide (x ≠ d) && decide (x ≠ undefinedBackendId)) ds) := by
    apply List.map_congr_left
    intro a ha
    rw [List.mem_filter] at ha
    have had : ¬a = d := by
      have h2 := ha.2
      simp only [Bool.and_eq_true, decide_eq_true_eq] at h2
      exact h2.1
    simp [had]
  rw [hid, List.map_id]

/-- RemoveDuplicateDevices computes the first occurrence of every device,
with all Undefined entries removed as well. -/
lemma markDuplicateDevices_filter (l : List BackendId) :
    (markDuplicateDevices l).filter (fun x => x ≠ undefinedBackendId) =
    firstOccurrences (l.filter (fun x => x ≠ undefinedBackendId)) := by
  have main : ∀ n : Nat, ∀ l : List BackendId, l.length = n →
      (markDuplicateDevices l).filter (fun x => x ≠ undefinedBackendId) =
      firstOccurrences (l.filter (fun x => x ≠ undefinedBackendId)) := by
    intro n
    induction n using Nat.strong_induction_on with
    | _ n ih =>
      intro l hl
      cases l with
      | nil =>
          rw [markDuplicateDevices]
          simp only [List.filter_nil]
          rw [firstOccurrences]
      | cons d ds =>
          simp only [List.length_cons] at hl
          have hlen : (ds.map (fun x => if x = d then undefinedBackendId else x)).length < n := by
            rw [List.length_map]
            omega
          have ih1 := ih _ hlen (ds.map (fun x => if x = d then undefinedBackendId else x)) rfl
          rw [markDuplicateDevices]
          by_cases hd : d = undefinedBackendId
          · subst hd
            rw [map_mark_undefined] at ih1 ⊢
            rw [List.filter_cons_of_neg (by simp), List.filter_cons_of_neg (by simp)]
            exact ih1
          · rw [List.filter_cons_of_pos (by simp [hd]), List.filter_cons_of_pos (by simp [hd])]
            rw [firstOccurrences, ih1, map_mark_filter d hd ds]
  exact main l.length l rfl

/-- C10 counterexample: the claim fails at the input list ["Unknown"]: the
string "Unknown" equals the backend id of the Compute::Undefined sentinel
that RemoveDuplicateDevices erases, so it is a distinct entry of the input
that the returned list drops, and the result is not the list of first
occurrences of the distinct input ids. -/
theorem C10_counterexample :
    GetBackendIDs ["Unknown"] = [] ∧
    BackendId.mk "Unknown" ∈ ["Unknown"].map BackendId.mk ∧
    GetBackendIDs ["Unknown"] ≠
      firstOccurrences (["Unknown"].map BackendId.mk) := by
  have hmark : markDuplicateDevices [undefinedBackendId] = [undefinedBackendId] := by
    rw [markDuplicateDevices, List.map_nil, markDuplicateDevices]
  have hg : GetBackendIDs ["Unknown"] = [] := by
    have h1 : GetBackendIDs ["Unknown"] =
        (markDuplicateDevices [undefinedBackendId]).filter
          (fun d => d ≠ undefinedBackendId) := rfl
    rw [h1, hmark]
    rfl
  have hf : firstOccurrences (["Unknown"].map BackendId.mk) = [undefinedBackendId] := by
    have h2 : firstOccurrences (["Unknown"].map BackendId.mk) =
        firstOccurrences [undefinedBackendId] := rfl
    rw [h2, firstOccurrences, List.filter_nil, firstOccurrences]
  exact ⟨hg, by decide, by rw [hg, hf]; decide⟩

/-- C10 (amended): GetBackendIDs returns the distinct ids of the input in
the order of their first occurrences, except that every entry equal to the
id of the Undefined device (the string "Unknown") is removed as well; in
particular, on inputs containing no "Unknown" entry it is exactly the
first-occurrence deduplication. -/
theorem C10_getBackendIDs_dedup (backendStrings : List String) :
    GetBackendIDs backendStrings =
      firstOccurrences ((backendStrings.map BackendId.mk).filter
        (fun x => x ≠ undefinedBackendId)) := by
  unfold GetBackendIDs RemoveDuplicateDevices
  exact markDuplicateDevices_filter _

/-- C1: for every tensor info and every (optional) data layout, asking the
import-capable Cl tensor-handle factory for a memory-manager-backed
(managed) tensor handle fails with an explicit InvalidArgumentException
rather than silently allocating managed memory or falling back to a copy. -/
theorem C1_import_factory_rejects_managed (f : ClImportTensorHandleFactory)
    (info : TensorInfo) (layout : Option DataLayout) :
    f.CreateTensorHandle info layout true =
      .error (.invalidArgument "Create managed Imported tensor is not supported") := rfl

/-! ## TOSA mappings (claim C9) -/

/-- TOSA operator codes used by the mapping (tosa Op enum, restricted to
the codes the embedded code mentions). -/
inductive TosaOpCode
  | Op_UNKNOWN
  | Op_ADD
  | Op_CONST
  | Op_CONV2D
  | Op_AVG_POOL2D
  | Op_MAX_POOL2D
  | Op_RESHAPE
  | Op_SLICE
  | Op_TRANSPOSE_CONV2D
  | Op_CONCAT
deriving DecidableEq

/-- TOSA attribute kinds (tosa Attribute enum, restricted). -/
inductive TosaAttributeKind
  | Attribute_NONE
  | Attribute_PoolAttribute
  | Attribute_ConvAttribute
deriving DecidableEq

/-- A serialized TOSA operator (TosaSerializationOperator): the op code,
the attribute kind, and the input and output tensor names. -/
structure TosaSerializationOperator where
  op : TosaOpCode
  attributeKind : TosaAttributeKind
  inputTensorNames : List String
  outputTensorNames : List String
deriving DecidableEq

/-- A serialized TOSA tensor: its name, shape and element-type code. -/
structure TosaSerializationTensor where
  tensorName : String
  shape : List Nat
  dtypeCode : Nat
deriving DecidableEq

/-- A TOSA basic block (TosaSerializationBasicBlock): name, operators,
tensors, input tensor names, output tensor names. -/
structure TosaSerializationBasicBlock where
  blockName : String
  operators : List TosaSerializationOperator
  tensors : List TosaSerializationTensor
  inputNames : List String
  outputNames : List String
deriving DecidableEq

/-- CreateEmptyTosaSerializationBasicBlock (TosaMappings.cpp): the block
returned when no TOSA mapping is implemented: a single Op_UNKNOWN operator
with no attribute and no tensor names, inside an otherwise empty block. -/
def CreateEmptyTosaSerializationBasicBlock : TosaSerializationBasicBlock :=
  { blockName := ""
    operators := [{ op := .Op_UNKNOWN
                    attributeKind := .Attribute_NONE
                    inputTensorNames := []
                    outputTensorNames := [] }]
    tensors := []
    inputNames := []
    outputNames := [] }

/-- Layer types (armnn::LayerType; the full enum is outside the sources, so
this models every case named by the switch of GetTosaMapping together with
representative unmapped layer types falling to its default case). -/
inductive LayerType
  | Activation
  | Addition
  | BatchNormalization
  | Concat
  | Constant
  | Convolution2d
  | Division
  | Fill
  | Floor
  | FullyConnected
  | Input
  | Multiplication
  | Normalization
  | Output
  | Pad
  | Permute
  | Pooling2d
  | Reshape
  | Slice
  | Softmax
  | Splitter
  | Subtraction
  | TransposeConvolution2d
deriving DecidableEq

/-- Pooling algorithms (armnn::PoolingAlgorithm). -/
inductive PoolingAlgorithm
  | Max
  | Average
  | L2
deriving DecidableEq

/-- Padding methods (armnn::PaddingMethod). -/
inductive PaddingMethod
  | IgnoreValue
  | Exclude
deriving DecidableEq

/-- Pooling descriptor fields consulted by GetTosaMapping. -/
structure Pooling2dDescriptor where
  m_PoolType : PoolingAlgorithm
  m_PaddingMethod : PaddingMethod
deriving DecidableEq

/-- Concat origins descriptor (opaque to the mapping switch). -/
structure OriginsDescriptor where
  concatAxis : Nat
deriving DecidableEq

/-- Convolution descriptor (opaque to the mapping switch). -/
structure Convolution2dDescriptor where
  strideX : Nat
  strideY : Nat
deriving DecidableEq

/-- Reshape descriptor (opaque to the mapping switch). -/
structure ReshapeDescriptor where
  targetShape : List Nat
deriving DecidableEq

/-- Slice descriptor (opaque to the mapping switch). -/
structure SliceDescriptor where
  begins : List Nat
  sizes : List Nat
deriving DecidableEq

/-- Transpose-convolution descriptor (opaque to the mapping switch). -/
structure TransposeConvolution2dDescriptor where
  strideX : Nat
  strideY : Nat
deriving DecidableEq

/-- A descriptor passed by const reference as a BaseDescriptor, carrying
its dynamic type; GetTosaMapping downcasts it per layer type. -/
inductive BaseDescriptor
  | base
  | origins (d : OriginsDescriptor)
  | conv2d (d : Convolution2dDescriptor)
  | pooling2d (d : Pooling2dDescriptor)
  | reshape (d : ReshapeDescriptor)
  | slice (d : SliceDescriptor)
  | transposeConv2d (d : TransposeConvolution2dDescriptor)
deriving DecidableEq

/-- The asserted PolymorphicDowncast to an OriginsDescriptor, modelled as
an Option that is none exactly when the dynamic type does not match. -/
def BaseDescriptor.asOrigins : BaseDescriptor → Option OriginsDescriptor
  | .origins d => some d
  | _ => none

/-- The asserted PolymorphicDowncast to a Convolution2dDescriptor. -/
def BaseDescriptor.asConv2d : BaseDescriptor → Option Convolution2dDescriptor
  | .conv2d d => some d
  | _ => none

/-- The asserted PolymorphicDowncast to a Pooling2dDescriptor. -/
def BaseDescriptor.asPooling2d : BaseDescriptor → Option Pooling2dDescriptor
  | .pooling2d d => some d
  | _ => none

/-- The asserted PolymorphicDowncast to a ReshapeDescriptor. -/
def BaseDescriptor.asReshape : BaseDescriptor → Option ReshapeDescriptor
  | .reshape d => some d
  | _ => none

/-- The asserted PolymorphicDowncast to a SliceDescriptor. -/
def BaseDescriptor.asSlice : BaseDescriptor → Option SliceDescriptor
  | .slice d => some d
  | _ => none

/-- The asserted PolymorphicDowncast to a TransposeConvolution2dDescriptor. -/
def BaseDescriptor.asTransposeConv2d : BaseDescriptor → Option TransposeConvolution2dDescriptor
  | .transposeConv2d d => some d
  | _ => none

/-- The per-operator TOSA converters called by GetTosaMapping live outside
the sources (tosaCommon operator mappings); the mapping switch is embedded
parametrically over any such family of total converters. -/
structure TosaConverters where
  convertAddition : List TensorInfo → List TensorInfo → TosaSerializationBasicBlock
  convertConcat : List TensorInfo → List TensorInfo → OriginsDescriptor →
    TosaSerializationBasicBlock
  convertConstant : List TensorInfo → TosaSerializationBasicBlock
  convertConv2d : List TensorInfo → List TensorInfo → Convolution2dDescriptor →
    TosaSerializationBasicBlock
  convertAvgPool2DIgnoreValue : List TensorInfo → List TensorInfo → Pooling2dDescriptor →
    TosaSerializationBasicBlock
  convertPooling2D : List TensorInfo → List TensorInfo → Pooling2dDescriptor →
    TosaSerializationBasicBlock
  convertReshape : List TensorInfo → List TensorInfo → ReshapeDescriptor →
    TosaSerializationBasicBlock
  convertSlice : List TensorInfo → List TensorInfo → SliceDescriptor →
    TosaSerializationBasicBlock
  convertTransposeConv2d : List TensorInfo → List TensorInfo →
    TransposeConvolution2dDescriptor → TosaSerializationBasicBlock

/-- GetTosaMapping (TosaMappings.cpp): the switch over the layer type.  A
result of none models only the asserted-downcast failure of
PolymorphicDowncast when the descriptor does not have the dynamic type the
case expects; every switch arm itself returns a block, and the default arm
and the L2 pooling arm return the empty basic block. -/
def GetTosaMapping (c : TosaConverters) (type : LayerType)
    (inputs outputs : List TensorInfo) (descriptor : BaseDescriptor) :
    Option TosaSerializationBasicBlock :=
  match type with
  | .Addition => some (c.convertAddition inputs outputs)
  | .Concat => descriptor.asOrigins.map (fun concatDesc =>
      c.convertConcat inputs outputs concatDesc)
  | .Constant => some (c.convertConstant outputs)
  | .Convolution2d => descriptor.asConv2d.map (fun conv2dDesc =>
      c.convertConv2d inputs outputs conv2dDesc)
  | .Pooling2d => descriptor.asPooling2d.map (fun poolDesc =>
      let avgPoolIgnoreValue :=
        poolDesc.m_PoolType = PoolingAlgorithm.Average ∧
        poolDesc.m_PaddingMethod = PaddingMethod.IgnoreValue
      if poolDesc.m_PoolType = PoolingAlgorithm.L2 then
        CreateEmptyTosaSerializationBasicBlock
      else if avgPoolIgnoreValue then
        c.convertAvgPool2DIgnoreValue inputs outputs poolDesc
      else
        c.convertPooling2D inputs outputs poolDesc)
  | .Reshape => descriptor.asReshape.map (fun reshapeDesc =>
      c.convertReshape inputs outputs reshapeDesc)
  | .Slice => descriptor.asSlice.map (fun sliceDesc =>
      c.convertSlice inputs outputs sliceDesc)
  | .TransposeConvolution2d => descriptor.asTransposeConv2d.map (fun transposeConv2dDesc =>
      c.convertTransposeConv2d inputs outputs transposeConv2dDesc)
  | _ => some CreateEmptyTosaSerializationBasicBlock

/-- Whether the descriptor has the dynamic type that the GetTosaMapping
switch case for the given layer type downcasts to (true for every layer
type whose case never downcasts). -/
def descriptorMatchesLayer (type : LayerType) (descriptor : BaseDescriptor) : Bool :=
  match type with
  | .Concat => descriptor.asOrigins.isSome
  | .Convolution2d => descriptor.asConv2d.isSome
  | .Pooling2d => descriptor.asPooling2d.isSome
  | .Reshape => descriptor.asReshape.isSome
  | .Slice => descriptor.asSlice.isSome
  | .TransposeConvolution2d => descriptor.asTransposeConv2d.isSome
  | _ => true

/-- The layer types with an implemented TOSA mapping: exactly the named
cases of the switch in GetTosaMapping. -/
def hasTosaMapping : LayerType → Bool
  | .Addition | .Concat | .Constant | .Convolution2d | .Pooling2d
  | .Reshape | .Slice | .TransposeConvolution2d => true
  | _ => false

/-- A concrete converter family used to instantiate the C9 theorem. -/
def trivialTosaConverters : TosaConverters :=
  { convertAddition := fun _ _ => CreateEmptyTosaSerializationBasicBlock
    convertConcat := fun _ _ _ => CreateEmptyTosaSerializationBasicBlock
    convertConstant := fun _ => CreateEmptyTosaSerializationBasicBlock
    convertConv2d := fun _ _ _ => CreateEmptyTosaSerializationBasicBlock
    convertAvgPool2DIgnoreValue := fun _ _ _ => CreateEmptyTosaSerializationBasicBlock
    convertPooling2D := fun _ _ _ => CreateEmptyTosaSerializationBasicBlock
    convertReshape := fun _ _ _ => CreateEmptyTosaSerializationBasicBlock
    convertSlice := fun _ _ _ => CreateEmptyTosaSerializationBasicBlock
    convertTransposeConv2d := fun _ _ _ => CreateEmptyTosaSerializationBasicBlock }

/-- C9: GetTosaMapping is total: for every layer type it returns a basic
block whenever the descriptor has the dynamic type its switch case
downcasts to (and no downcast can fail for types without one); for every
layer type without a TOSA mapping, and for Pooling2d with pool type L2, it
returns the empty basic block, which contains exactly one operator of op
code Op_UNKNOWN and no tensors. -/
theorem C9_getTosaMapping_total (c : TosaConverters) (type : LayerType)
    (inputs outputs : List TensorInfo) (descriptor : BaseDescriptor) :
    (descriptorMatchesLayer type descriptor = true →
      ∃ b, GetTosaMapping c type inputs outputs descriptor = some b) ∧
    (hasTosaMapping type = false →
      GetTosaMapping c type inputs outputs descriptor =
        some CreateEmptyTosaSerializationBasicBlock) ∧
    (∀ poolDesc : Pooling2dDescriptor, poolDesc.m_PoolType = PoolingAlgorithm.L2 →
      GetTosaMapping c .Pooling2d inputs outputs (.pooling2d poolDesc) =
        some CreateEmptyTosaSerializationBasicBlock) ∧
    CreateEmptyTosaSerializationBasicBlock.operators.length = 1 ∧
    (∀ o ∈ CreateEmptyTosaSerializationBasicBlock.operators, o.op = .Op_UNKNOWN) ∧
    CreateEmptyTosaSerializationBasicBlock.tensors = [] := by
  refine ⟨?_, ?_, ?_, rfl, ?_, rfl⟩
  · intro hmatch
    cases type <;> cases descriptor <;>
      simp_all [GetTosaMapping, descriptorMatchesLayer, BaseDescriptor.asOrigins,
        BaseDescriptor.asConv2d, BaseDescriptor.asPooling2d, BaseDescriptor.asReshape,
        BaseDescriptor.asSlice, BaseDescriptor.asTransposeConv2d]
  · intro hno
    cases type <;> simp_all [GetTosaMapping, hasTosaMapping]
  · intro poolDesc hL2
    simp [GetTosaMapping, BaseDescriptor.asPooling2d, hL2]
  · intro o ho
    simp [CreateEmptyTosaSerializationBasicBlock] at ho
    rw [ho]

/-- C9 witness: the theorem instantiated at an unmapped layer type and at
an L2 pooling layer. -/
theorem C9_getTosaMapping_total_witness :
    GetTosaMapping trivialTosaConverters .Activation [] [] .base =
      some CreateEmptyTosaSerializationBasicBlock ∧
    GetTosaMapping trivialTosaConverters .Pooling2d [] []
        (.pooling2d { m_PoolType := .L2, m_PaddingMethod := .Exclude }) =
      some CreateEmptyTosaSerializationBasicBlock :=
  ⟨(C9_getTosaMapping_total trivialTosaConverters .Activation [] [] .base).2.1 (by decide),
   (C9_getTosaMapping_total trivialTosaConverters .Pooling2d [] []
      (.pooling2d { m_PoolType := .L2, m_PaddingMethod := .Exclude })).2.2.1
      { m_PoolType := .L2, m_PaddingMethod := .Exclude } rfl⟩

/-! ## The loaded-network execution engine (claims C2 to C8)

The implementation file of LoadedNetwork is not among the sources; only its
header LoadedNetwork.hpp is.  The state and the operations below are
modelled from the specification, with names and state fields following the
header. -/

/-- Execution status of a call (armnn::Status). -/
inductive Status
  | Success
  | Failure
deriving DecidableEq

/-- The phase of the workload queue a unit of device work belongs to. -/
inductive Phase
  | input
  | compute
  | output
deriving DecidableEq

/-- One issued unit of device work: the phase of the queue it came from and
its index within that queue. -/
structure WorkEv where
  phase : Phase
  idx : Nat
deriving DecidableEq

/-- Modelled from the spec: the compiled graph as the engine consumes it —
the known input and output binding ids, the guids of the constant-valued
layers, the number of compute workloads the graph walk produces, and the
backends referenced by the graph.  One input-binding workload exists per
input binding and one output-binding workload per output binding. -/
structure CompiledGraph where
  inputBindings : List Nat
  outputBindings : List Nat
  constGuids : List Nat
  numComputeWorkloads : Nat
  backends : List String
deriving DecidableEq

/-- State of one constant-valued layer: its guid, the number of times its
one-shot workload has executed, and the contents of its dedicated constant
tensor handle. -/
structure ConstLayerState where
  guid : Nat
  execCount : Nat
  tensorData : Nat
deriving DecidableEq

/-- An import pin (LoadedNetwork.hpp, ImportedTensorHandlePin): the opaque
imported id mapped back to the layer binding id of the imported handle. -/
structure ImportedTensorHandlePin where
  importedId : Nat
  layerBindingId : Nat
deriving DecidableEq

/-- Modelled from the spec: the loaded-network engine state, with fields
following LoadedNetwork.hpp.  The unimported-id lists record every imported
id whose tensor handle has received an Unimport call. -/
structure LoadedNetwork where
  graph : CompiledGraph
  constLayers : List ConstLayerState
  isWorkingMemAllocated : Bool
  poolReleaseCount : Nat
  preImportedInputHandles : List ImportedTensorHandlePin
  preImportedOutputHandles : List ImportedTensorHandlePin
  curImportedInputId : Nat
  curImportedOutputId : Nat
  unimportedInputIds : List Nat
  unimportedOutputIds : List Nat
deriving DecidableEq

/-- Modelled from the spec: per-backend workload factory creation during
load — a backend missing from the registry, or one whose factory creation
fails (injected through the failure list), aborts with a descriptive
message. -/
def createWorkloadFactories (registry factoryFailures : List String) :
    List String → Except String (List String)
  | [] => .ok []
  | b :: bs =>
      if b ∉ registry then
        .error "Unsupported backend referenced by the optimized network"
      else if b ∈ factoryFailures then
        .error "Workload factory creation failed for a backend"
      else
        match createWorkloadFactories registry factoryFailures bs with
        | .error msg => .error msg
        | .ok fs => .ok (b :: fs)

/-- The value the one-shot workload of a constant layer writes into its
dedicated constant tensor handle. -/
def constWorkloadResult (guid : Nat) : Nat := guid

/-- The constant layer states as created, before their workloads run. -/
def initConstLayers (constGuids : List Nat) : List ConstLayerState :=
  constGuids.map (fun g => { guid := g, execCount := 0, tensorData := 0 })

/-- One execution of the one-shot workload of a constant layer. -/
def runConstantWorkload (c : ConstLayerState) : ConstLayerState :=
  { c with execCount := c.execCount + 1, tensorData := constWorkloadResult c.guid }

/-- Modelled from the spec: AllocateAndExecuteConstantWorkloads
(LoadedNetwork.hpp) — runs the one-shot workload of every constant layer. -/
def AllocateAndExecuteConstantWorkloads (cs : List ConstLayerState) : List ConstLayerState :=
  cs.map runConstantWorkload

/-- Modelled from the spec: MakeLoadedNetwork (LoadedNetwork.hpp) —
instantiates the workload factory of every backend referenced by the graph
and builds the engine, running the constant workloads once at load time;
any backend or factory error aborts construction, no engine is returned and
a descriptive message is propagated through the errorMessage out-parameter
(the second component). -/
def MakeLoadedNetwork (graph : CompiledGraph)
    (registry factoryFailures : List String) :
    Option LoadedNetwork × String :=
  match createWorkloadFactories registry factoryFailures graph.backends with
  | .error msg => (none, msg)
  | .ok _ =>
      (some { graph := graph
              constLayers := AllocateAndExecuteConstantWorkloads (initConstLayers graph.constGuids)
              isWorkingMemAllocated := false
              poolReleaseCount := 0
              preImportedInputHandles := []
              preImportedOutputHandles := []
              curImportedInputId := 0
              curImportedOutputId := 0
              unimportedInputIds := []
              unimportedOutputIds := [] }, "")

/-- Modelled from the spec: binding-id validation — the first supplied
input or output tensor whose binding id is not known to the compiled graph
yields a descriptive binding error, before any device work. -/
def validateBindingIds (g : CompiledGraph)
    (inputTensors outputTensors : List (Nat × Nat)) : Option String :=
  match inputTensors.find? (fun t => t.1 ∉ g.inputBindings) with
  | some _ => some "No input layer is associated with the given binding id"
  | none =>
      match outputTensors.find? (fun t => t.1 ∉ g.outputBindings) with
      | some _ => some "No output layer is associated with the given binding id"
      | none => none

/-- The three workload queues built at load time (LoadedNetwork.hpp fields
m_InputQueue, m_WorkloadQueue, m_OutputQueue), as the trace of device work
one full run issues: every input-binding workload, then every compute
workload, then every output-binding workload. -/
def runWorkloadQueues (g : CompiledGraph) : List WorkEv :=
  (List.range g.inputBindings.length).map (fun i => { phase := .input, idx := i }) ++
  ((List.range g.numComputeWorkloads).map (fun i => { phase := .compute, idx := i }) ++
   (List.range g.outputBindings.length).map (fun i => { phase := .output, idx := i }))

/-- Modelled from the spec: EnqueueWorkload (LoadedNetwork.hpp) — the
single-thread execution path: validates the binding ids first (failing
before any device work is issued), lazily allocates the shared working
memory, then runs the three queues in order.  The result is the new engine
state, the trace of issued device work, and the outcome. -/
def EnqueueWorkload (e : LoadedNetwork)
    (inputTensors outputTensors : List (Nat × Nat)) :
    LoadedNetwork × List WorkEv × Except String Status :=
  match validateBindingIds e.graph inputTensors outputTensors with
  | some msg => (e, [], .error msg)
  | none =>
      ({ e with isWorkingMemAllocated := true }, runWorkloadQueues e.graph, .ok .Success)

/-- Modelled from the spec: a working-memory handle — a private bundle of
tensor handles enabling one concurrent execution stream; its contents
beyond its identity are irrelevant to the claims settled here. -/
structure WorkingMemHandle where
  handleId : Nat
deriving DecidableEq

/-- Modelled from the spec: ValidateImportedInputID (LoadedNetwork.hpp) —
resolves a pre-imported id to the layer binding id of its live pin, failing
when no live pin carries the id. -/
def ValidateImportedInputID (e : LoadedNetwork) (id : Nat) : Except String Nat :=
  match e.preImportedInputHandles.find? (fun p => p.importedId = id) with
  | some p => .ok p.layerBindingId
  | none => .error "Invalid imported input id"

/-- Modelled from the spec: ValidateImportedOutputID (LoadedNetwork.hpp). -/
def ValidateImportedOutputID (e : LoadedNetwork) (id : Nat) : Except String Nat :=
  match e.preImportedOutputHandles.find? (fun p => p.importedId = id) with
  | some p => .ok p.layerBindingId
  | none => .error "Invalid imported output id"

/-- Modelled from the spec: Execute (LoadedNetwork.hpp) — the thread-safe
execution path against a private working-memory handle: validates the
binding ids and the pre-imported pin ids before any device work, then runs
the shared three-phase workload queue with the handle bindings; the engine
state is untouched. -/
def Execute (e : LoadedNetwork) (inputTensors outputTensors : List (Nat × Nat))
    (workingMemHandle : WorkingMemHandle)
    (preImportedInputs preImportedOutputs : List Nat) :
    LoadedNetwork × List WorkEv × Except String Status :=
  match validateBindingIds e.graph inputTensors outputTensors with
  | some msg => (e, [], .error msg)
  | none =>
      if preImportedInputs.all (fun id =>
          (e.preImportedInputHandles.find? (fun p => p.importedId = id)).isSome) then
        if preImportedOutputs.all (fun id =>
            (e.preImportedOutputHandles.find? (fun p => p.importedId = id)).isSome) then
          (e, runWorkloadQueues e.graph, .ok .Success)
        else
          (e, [], .error "Invalid imported output id")
      else
        (e, [], .error "Invalid imported input id")

/-- The pins created for a batch of imported binding ids, numbered from the
next free imported id. -/
def mkPins : List Nat → Nat → List ImportedTensorHandlePin
  | [], _ => []
  | b :: bs, startId => { importedId := startId, layerBindingId := b } :: mkPins bs (startId + 1)

/-- Modelled from the spec: ImportInputs (LoadedNetwork.hpp) — wraps each
caller tensor with no copy into a new pin carrying the next monotonically
increasing imported id and returns the assigned ids; a tensor naming an
unknown binding id makes the call fail with the engine unchanged. -/
def ImportInputs (e : LoadedNetwork) (inputTensors : List (Nat × Nat)) :
    LoadedNetwork × Except String (List Nat) :=
  if inputTensors.all (fun t => t.1 ∈ e.graph.inputBindings) then
    let newPins := mkPins (inputTensors.map Prod.fst) e.curImportedInputId
    ({ e with
        preImportedInputHandles := e.preImportedInputHandles ++ newPins
        curImportedInputId := e.curImportedInputId + inputTensors.length },
     .ok (newPins.map (fun p => p.importedId)))
  else
    (e, .error "ImportInputs: unknown input binding id")

/-- Modelled from the spec: ImportOutputs (LoadedNetwork.hpp), mirroring
ImportInputs for the output pin table. -/
def ImportOutputs (e : LoadedNetwork) (outputTensors : List (Nat × Nat)) :
    LoadedNetwork × Except String (List Nat) :=
  if outputTensors.all (fun t => t.1 ∈ e.graph.outputBindings) then
    let newPins := mkPins (outputTensors.map Prod.fst) e.curImportedOutputId
    ({ e with
        preImportedOutputHandles := e.preImportedOutputHandles ++ newPins
        curImportedOutputId := e.curImportedOutputId + outputTensors.length },
     .ok (newPins.map (fun p => p.importedId)))
  else
    (e, .error "ImportOutputs: unknown output binding id")

/-- Releasing the pins named by a list of imported ids from one pin table:
the named pins are dropped and Unimport is called on each of their tensor
handles (their ids are appended to the unimport log). -/
def clearPins (pins : List ImportedTensorHandlePin) (log : List Nat) (ids : List Nat) :
    List ImportedTensorHandlePin × List Nat :=
  (pins.filter (fun p => p.importedId ∉ ids),
   log ++ (pins.filter (fun p => p.importedId ∈ ids)).map (fun p => p.importedId))

/-- Modelled from the spec: ClearImportedInputs (LoadedNetwork.hpp) —
unimports and drops the pins named by the given imported ids; naming an id
with no live pin is an error that leaves the engine unchanged. -/
def ClearImportedInputs (e : LoadedNetwork) (inputIds : List Nat) :
    LoadedNetwork × Except String Unit :=
  if inputIds.all (fun id =>
      (e.preImportedInputHandles.find? (fun p => p.importedId = id)).isSome) then
    let cleared := clearPins e.preImportedInputHandles e.unimportedInputIds inputIds
    ({ e with preImportedInputHandles := cleared.1, unimportedInputIds := cleared.2 },
     .ok ())
  else
    (e, .error "ClearImportedInputs: invalid imported input id")

/-- Modelled from the spec: ClearImportedOutputs (LoadedNetwork.hpp). -/
def ClearImportedOutputs (e : LoadedNetwork) (outputIds : List Nat) :
    LoadedNetwork × Except String Unit :=
  if outputIds.all (fun id =>
      (e.preImportedOutputHandles.find? (fun p => p.importedId = id)).isSome) then
    let cleared := clearPins e.preImportedOutputHandles e.unimportedOutputIds outputIds
    ({ e with preImportedOutputHandles := cleared.1, unimportedOutputIds := cleared.2 },
     .ok ())
  else
    (e, .error "ClearImportedOutputs: invalid imported output id")

/-- Modelled from the spec: FreeWorkingMemory (LoadedNetwork.hpp) —
releases the shared working-memory pool when it is allocated, recording one
release with the backend memory managers, and is a no-op otherwise; it
never throws. -/
def FreeWorkingMemory (e : LoadedNetwork) : LoadedNetwork :=
  if e.isWorkingMemAllocated then
    { e with isWorkingMemAllocated := false, poolReleaseCount := e.poolReleaseCount + 1 }
  else
    e

/-- Destruction of the member pin tables at engine teardown: the destructor
of every live ImportedTensorHandlePin calls Unimport on its tensor handle
(LoadedNetwork.hpp lines 158 to 164). -/
def releaseAllPins (e : LoadedNetwork) : LoadedNetwork :=
  { e with
      preImportedInputHandles := []
      preImportedOutputHandles := []
      unimportedInputIds :=
        e.unimportedInputIds ++ e.preImportedInputHandles.map (fun p => p.importedId)
      unimportedOutputIds :=
        e.unimportedOutputIds ++ e.preImportedOutputHandles.map (fun p => p.importedId) }

/-- The destructor of LoadedNetwork (LoadedNetwork.hpp lines 40 to 43): the
body calls FreeWorkingMemory, after which the member pin tables are
destroyed, unimporting every remaining pin. -/
def destroyLoadedNetwork (e : LoadedNetwork) : LoadedNetwork :=
  releaseAllPins (FreeWorkingMemory e)

/-- One external call against a loaded network, for stating invariants over
arbitrary call sequences. -/
inductive EngineCall
  | enqueue (inputTensors outputTensors : List (Nat × Nat))
  | execute (inputTensors outputTensors : List (Nat × Nat))
      (workingMemHandle : WorkingMemHandle)
      (preImportedInputs preImportedOutputs : List Nat)
  | importIns (inputTensors : List (Nat × Nat))
  | importOuts (outputTensors : List (Nat × Nat))
  | clearIns (inputIds : List Nat)
  | clearOuts (outputIds : List Nat)
  | freeWorkingMem

/-- The engine state after one external call. -/
def applyCall (e : LoadedNetwork) : EngineCall → LoadedNetwork
  | .enqueue ins outs => (EnqueueWorkload e ins outs).1
  | .execute ins outs h preIns preOuts => (Execute e ins outs h preIns preOuts).1
  | .importIns ins => (ImportInputs e ins).1
  | .importOuts outs => (ImportOutputs e outs).1
  | .clearIns ids => (ClearImportedInputs e ids).1
  | .clearOuts ids => (ClearImportedOutputs e ids).1
  | .freeWorkingMem => FreeWorkingMemory e

/-- The engine state after a sequence of external calls. -/
def applyCalls (e : LoadedNetwork) (cs : List EngineCall) : LoadedNetwork :=
  cs.foldl applyCall e

/-- A small concrete compiled graph used to instantiate the theorems. -/
def sampleGraph : CompiledGraph :=
  { inputBindings := [0]
    outputBindings := [1]
    constGuids := [7]
    numComputeWorkloads := 1
    backends := ["CpuRef"] }

/-- The loaded network MakeLoadedNetwork builds for the sample graph. -/
def sampleEngine : LoadedNetwork :=
  { graph := sampleGraph
    constLayers := [{ guid := 7, execCount := 1, tensorData := 7 }]
    isWorkingMemAllocated := false
    poolReleaseCount := 0
    preImportedInputHandles := []
    preImportedOutputHandles := []
    curImportedInputId := 0
    curImportedOutputId := 0
    unimportedInputIds := []
    unimportedOutputIds := [] }

/-- A binding-id validation failure yields a nonempty message whenever some
supplied tensor names an unknown binding id. -/
lemma validateBindingIds_some_of_bad (g : CompiledGraph)
    (inputTensors outputTensors : List (Nat × Nat))
    (hbad : (∃ t ∈ inputTensors, t.1 ∉ g.inputBindings) ∨
            (∃ t ∈ outputTensors, t.1 ∉ g.outputBindings)) :
    ∃ msg, validateBindingIds g inputTensors outputTensors = some msg ∧ msg ≠ "" := by
  unfold validateBindingIds
  cases hfi : inputTensors.find? (fun t => t.1 ∉ g.inputBindings) with
  | some t => exact ⟨_, rfl, by decide⟩
  | none =>
      cases hbad with
      | inl h =>
          exfalso
          obtain ⟨t, ht, hp⟩ := h
          have := (List.find?_eq_none.mp hfi) t ht
          simp at this
          exact hp this
      | inr h =>
          have hsome : (outputTensors.find? (fun t => t.1 ∉ g.outputBindings)).isSome := by
            rw [List.find?_isSome]
            obtain ⟨t, ht, hp⟩ := h
            exact ⟨t, ht, by simpa using hp⟩
          obtain ⟨t, hft⟩ := Option.isSome_iff_exists.mp hsome
          rw [hft]
          exact ⟨_, rfl, by decide⟩

/-- Validation succeeds when every supplied binding id is known. -/
lemma validateBindingIds_none_of_good (g : CompiledGraph)
    (inputTensors outputTensors : List (Nat × Nat))
    (hin : ∀ t ∈ inputTensors, t.1 ∈ g.inputBindings)
    (hout : ∀ t ∈ outputTensors, t.1 ∈ g.outputBindings) :
    validateBindingIds g inputTensors outputTensors = none := by
  unfold validateBindingIds
  have h1 : inputTensors.find? (fun t => t.1 ∉ g.inputBindings) = none := by
    rw [List.find?_eq_none]
    intro t ht
    simpa using hin t ht
  have h2 : outputTensors.find? (fun t => t.1 ∉ g.outputBindings) = none := by
    rw [List.find?_eq_none]
    intro t ht
    simpa using hout t ht
  rw [h1, h2]

/-- C2: a call to EnqueueWorkload or Execute whose input or output tensors
name a binding id unknown to the compiled graph fails with a descriptive
binding error before any device work is issued (empty trace, engine state
unchanged), and the engine remains usable: a subsequent call with known
binding ids succeeds. -/
theorem C2_unknown_binding_id_rejected (e : LoadedNetwork)
    (inputTensors outputTensors : List (Nat × Nat))
    (hbad : (∃ t ∈ inputTensors, t.1 ∉ e.graph.inputBindings) ∨
            (∃ t ∈ outputTensors, t.1 ∉ e.graph.outputBindings)) :
    (∃ msg, msg ≠ "" ∧
       EnqueueWorkload e inputTensors outputTensors = (e, [], .error msg)) ∧
    (∀ workingMemHandle preIns preOuts, ∃ msg, msg ≠ "" ∧
       Execute e inputTensors outputTensors workingMemHandle preIns preOuts =
         (e, [], .error msg)) ∧
    (∀ ins2 outs2,
       (∀ t ∈ ins2, t.1 ∈ e.graph.inputBindings) →
       (∀ t ∈ outs2, t.1 ∈ e.graph.outputBindings) →
       (EnqueueWorkload e ins2 outs2).2.2 = .ok .Success) := by
  obtain ⟨msg, hv, hne⟩ :=
    validateBindingIds_some_of_bad e.graph inputTensors outputTensors hbad
  refine ⟨⟨msg, hne, ?_⟩, ?_, ?_⟩
  · simp [EnqueueWorkload, hv]
  · intro workingMemHandle preIns preOuts
    exact ⟨msg, hne, by simp [Execute, hv]⟩
  · intro ins2 outs2 hin hout
    have hnone := validateBindingIds_none_of_good e.graph ins2 outs2 hin hout
    simp [EnqueueWorkload, hnone]

/-- C2 witness: after rejecting binding id 2, the sample engine accepts a
call on its known binding ids. -/
theorem C2_witness :
    (EnqueueWorkload sampleEngine [(0, 5)] [(1, 0)]).2.2 = .ok .Success :=
  (C2_unknown_binding_id_rejected sampleEngine [(2, 5)] []
      (Or.inl ⟨(2, 5), by decide, by decide⟩)).2.2 [(0, 5)] [(1, 0)]
      (by decide) (by decide)

/-- No external call changes the constant layer states. -/
lemma applyCall_constLayers (e : LoadedNetwork) (c : EngineCall) :
    (applyCall e c).constLayers = e.constLayers := by
  cases c with
  | enqueue ins outs =>
      cases hv : validateBindingIds e.graph ins outs <;>
        simp [applyCall, EnqueueWorkload, hv]
  | execute ins outs workingMemHandle preIns preOuts =>
      cases hv : validateBindingIds e.graph ins outs with
      | some msg => simp [applyCall, Execute, hv]
      | none =>
          simp only [applyCall, Execute, hv]
          split_ifs <;> rfl
  | importIns ins =>
      simp only [applyCall, ImportInputs]
      split_ifs <;> rfl
  | importOuts outs =>
      simp only [applyCall, ImportOutputs]
      split_ifs <;> rfl
  | clearIns ids =>
      simp only [applyCall, ClearImportedInputs]
      split_ifs <;> rfl
  | clearOuts ids =>
      simp only [applyCall, ClearImportedOutputs]
      split_ifs <;> rfl
  | freeWorkingMem =>
      simp only [applyCall, FreeWorkingMemory]
      split_ifs <;> rfl

/-- No sequence of external calls changes the constant layer states. -/
lemma applyCalls_constLayers (cs : List EngineCall) :
    ∀ e : LoadedNetwork, (applyCalls e cs).constLayers = e.constLayers := by
  induction cs with
  | nil => intro e; rfl
  | cons c cs ih =>
      intro e
      calc (applyCalls e (c :: cs)).constLayers
          = (applyCalls (applyCall e c) cs).constLayers := rfl
        _ = (applyCall e c).constLayers := ih _
        _ = e.constLayers := applyCall_constLayers e c

/-- C3: on every successfully loaded network, each constant layer one-shot
workload has executed exactly once at load time, filling its constant
tensor handle, and no sequence of subsequent external calls (EnqueueWorkload,
Execute, import, clear, free) re-executes a constant workload or mutates a
constant tensor handle: the shared constant layer states are unchanged, so
all executions read the same ConstantTensors. -/
theorem C3_constants_precomputed_once (graph : CompiledGraph)
    (registry factoryFailures : List String) (e : LoadedNetwork)
    (hmk : (MakeLoadedNetwork graph registry factoryFailures).1 = some e) :
    (∀ c ∈ e.constLayers,
       c.execCount = 1 ∧ c.tensorData = constWorkloadResult c.guid) ∧
    (∀ cs : List EngineCall, (applyCalls e cs).constLayers = e.constLayers) := by
  constructor
  · intro c hc
    have he : e.constLayers =
        AllocateAndExecuteConstantWorkloads (initConstLayers graph.constGuids) := by
      unfold MakeLoadedNetwork at hmk
      cases hcf : createWorkloadFactories registry factoryFailures graph.backends with
      | error msg => rw [hcf] at hmk; simp at hmk
      | ok fs =>
          rw [hcf] at hmk
          simp at hmk
          rw [← hmk]
    rw [he] at hc
    unfold AllocateAndExecuteConstantWorkloads initConstLayers at hc
    rw [List.map_map] at hc
    obtain ⟨g, hg, hc2⟩ := List.mem_map.mp hc
    rw [← hc2]
    exact ⟨rfl, rfl⟩
  · intro cs
    exact applyCalls_constLayers cs e

/-- C3 witness: the theorem instantiated at the sample graph and a
one-call sequence. -/
theorem C3_witness :
    (applyCalls sampleEngine [EngineCall.freeWorkingMem]).constLayers =
      sampleEngine.constLayers :=
  (C3_constants_precomputed_once sampleGraph ["CpuRef"] [] sampleEngine rfl).2
    [EngineCall.freeWorkingMem]

/-- A backend missing from the registry, or one whose factory creation
fails, makes factory creation return a descriptive error. -/
lemma createWorkloadFactories_error (registry factoryFailures : List String)
    (bs : List String)
    (hbad : ∃ b ∈ bs, b ∉ registry ∨ b ∈ factoryFailures) :
    ∃ msg, createWorkloadFactories registry factoryFailures bs = .error msg ∧
      msg ≠ "" := by
  induction bs with
  | nil =>
      obtain ⟨b, hb, _⟩ := hbad
      exact absurd hb (List.not_mem_nil b)
  | cons b bs ih =>
      by_cases h1 : b ∈ registry
      · by_cases h2 : b ∈ factoryFailures
        · exact ⟨"Workload factory creation failed for a backend",
            by simp [createWorkloadFactories, h1, h2], by decide⟩
        · obtain ⟨x, hx, hxbad⟩ := hbad
          rcases List.mem_cons.mp hx with rfl | hxbs
          · cases hxbad with
            | inl hh => exact absurd h1 hh
            | inr hh => exact absurd hh h2
          · obtain ⟨msg, hmsg, hne⟩ := ih ⟨x, hxbs, hxbad⟩
            refine ⟨msg, ?_, hne⟩
            simp [createWorkloadFactories, h1, h2, hmsg]
      · exact ⟨"Unsupported backend referenced by the optimized network",
          by simp [createWorkloadFactories, h1], by decide⟩

/-- C4: when any backend or workload-factory error occurs during
construction, MakeLoadedNetwork returns no engine object and propagates a
nonempty descriptive error message; no partially constructed engine is
returned for any failing input. -/
theorem C4_construction_error_returns_no_engine (graph : CompiledGraph)
    (registry factoryFailures : List String)
    (hbad : ∃ b ∈ graph.backends, b ∉ registry ∨ b ∈ factoryFailures) :
    (MakeLoadedNetwork graph registry factoryFailures).1 = none ∧
    (MakeLoadedNetwork graph registry factoryFailures).2 ≠ "" := by
  obtain ⟨msg, hmsg, hne⟩ :=
    createWorkloadFactories_error registry factoryFailures graph.backends hbad
  constructor <;> simp [MakeLoadedNetwork, hmsg, hne]

/-- A compiled graph referencing a backend absent from the registry. -/
def sampleBadGraph : CompiledGraph :=
  { sampleGraph with backends := ["NpuFancy"] }

/-- C4 witness: loading the sample graph that references an unregistered
backend returns no engine. -/
theorem C4_witness :
    (MakeLoadedNetwork sampleBadGraph ["CpuRef"] []).1 = none :=
  (C4_construction_error_returns_no_engine sampleBadGraph ["CpuRef"] []
    ⟨"NpuFancy", by decide, Or.inl (by decide)⟩).1

/-- C6: FreeWorkingMemory is idempotent: calling it twice in a row leaves
the same state as calling it once (the second call is a no-op), and a call
when no working memory was ever allocated is also a no-op; it is a total
function (it never throws). -/
theorem C6_freeWorkingMemory_idempotent (e : LoadedNetwork) :
    FreeWorkingMemory (FreeWorkingMemory e) = FreeWorkingMemory e ∧
    (e.isWorkingMemAllocated = false → FreeWorkingMemory e = e) := by
  constructor
  · by_cases h : e.isWorkingMemAllocated <;> simp [FreeWorkingMemory, h]
  · intro h
    simp [FreeWorkingMemory, h]

/-- C6 witness: on the freshly loaded sample engine, whose working memory
was never allocated, FreeWorkingMemory is a no-op. -/
theorem C6_witness : FreeWorkingMemory sampleEngine = sampleEngine :=
  (C6_freeWorkingMemory_idempotent sampleEngine).2 rfl

/-- C7: destruction implies FreeWorkingMemory: the destructor calls
FreeWorkingMemory, so after destruction the working memory is not
allocated, and on every engine whose pool is still allocated (FreeWorkingMemory
was never explicitly called after allocation) destruction releases the
shared working-memory pool exactly once. -/
theorem C7_destructor_frees_working_memory (e : LoadedNetwork) :
    destroyLoadedNetwork e = releaseAllPins (FreeWorkingMemory e) ∧
    (destroyLoadedNetwork e).isWorkingMemAllocated = false ∧
    (e.isWorkingMemAllocated = true →
      (destroyLoadedNetwork e).poolReleaseCount = e.poolReleaseCount + 1) := by
  refine ⟨rfl, ?_, ?_⟩
  · by_cases h : e.isWorkingMemAllocated <;>
      simp [destroyLoadedNetwork, releaseAllPins, FreeWorkingMemory, h]
  · intro h
    simp [destroyLoadedNetwork, releaseAllPins, FreeWorkingMemory, h]

/-- The sample engine with its shared working memory allocated. -/
def sampleEngineAllocated : LoadedNetwork :=
  { sampleEngine with isWorkingMemAllocated := true }

/-- C7 witness: destroying the allocated sample engine releases its pool. -/
theorem C7_witness :
    (destroyLoadedNetwork sampleEngineAllocated).poolReleaseCount =
      sampleEngineAllocated.poolReleaseCount + 1 :=
  (C7_destructor_frees_working_memory sampleEngineAllocated).2.2 rfl

/-- The length of the full trace is the total size of the three queues. -/
lemma runWorkloadQueues_length (g : CompiledGraph) :
    (runWorkloadQueues g).length =
      g.inputBindings.length + g.numComputeWorkloads + g.outputBindings.length := by
  simp [runWorkloadQueues]
  omega

/-- The phase of the trace element at an index: input-binding first, then
compute, then output-binding. -/
lemma runWorkloadQueues_phase (g : CompiledGraph) (k : Nat)
    (hk : k < (runWorkloadQueues g).length) :
    ((runWorkloadQueues g).get ⟨k, hk⟩).phase =
      if k < g.inputBindings.length then Phase.input
      else if k < g.inputBindings.length + g.numComputeWorkloads then Phase.compute
      else Phase.output := by
  rw [List.get_eq_getElem]
  unfold runWorkloadQueues at hk ⊢
  rw [List.getElem_append]
  simp only [List.length_map, List.length_range] at hk ⊢
  split_ifs with h1 h2
  · simp
  · rw [List.getElem_append]
    simp only [List.length_map, List.length_range]
    split_ifs with h3
    · simp
    · omega
  · rw [List.getElem_append]
    simp only [List.length_map, List.length_range]
    split_ifs with h3
    · omega
    · simp

/-- C8: within one execution the three workload-queue phases run in the
fixed order inputs, compute, outputs: every trace EnqueueWorkload or
Execute issues is either empty (call rejected) or the full three-queue
run, and in the full run every input-binding workload comes before every
compute workload, which comes before every output-binding workload. -/
theorem C8_three_phase_order (e : LoadedNetwork)
    (inputTensors outputTensors : List (Nat × Nat))
    (workingMemHandle : WorkingMemHandle)
    (preImportedInputs preImportedOutputs : List Nat) :
    ((EnqueueWorkload e inputTensors outputTensors).2.1 = [] ∨
     (EnqueueWorkload e inputTensors outputTensors).2.1 = runWorkloadQueues e.graph) ∧
    ((Execute e inputTensors outputTensors workingMemHandle
        preImportedInputs preImportedOutputs).2.1 = [] ∨
     (Execute e inputTensors outputTensors workingMemHandle
        preImportedInputs preImportedOutputs).2.1 = runWorkloadQueues e.graph) ∧
    (∀ g : CompiledGraph, ∀ i j : Nat,
       ∀ hi : i < (runWorkloadQueues g).length,
       ∀ hj : j < (runWorkloadQueues g).length,
       (((runWorkloadQueues g).get ⟨i, hi⟩).phase = Phase.input →
          ((runWorkloadQueues g).get ⟨j, hj⟩).phase = Phase.compute → i < j) ∧
       (((runWorkloadQueues g).get ⟨i, hi⟩).phase = Phase.input →
          ((runWorkloadQueues g).get ⟨j, hj⟩).phase = Phase.output → i < j) ∧
       (((runWorkloadQueues g).get ⟨i, hi⟩).phase = Phase.compute →
          ((runWorkloadQueues g).get ⟨j, hj⟩).phase = Phase.output → i < j)) := by
  refine ⟨?_, ?_, ?_⟩
  · cases hv : validateBindingIds e.graph inputTensors outputTensors with
    | some msg => exact Or.inl (by simp [EnqueueWorkload, hv])
    | none => exact Or.inr (by simp [EnqueueWorkload, hv])
  · cases hv : validateBindingIds e.graph inputTensors outputTensors with
    | some msg => exact Or.inl (by simp [Execute, hv])
    | none =>
        by_cases ha : preImportedInputs.all (fun id =>
            (e.preImportedInputHandles.find? (fun p => p.importedId = id)).isSome) = true
        · by_cases hb : preImportedOutputs.all (fun id =>
              (e.preImportedOutputHandles.find? (fun p => p.importedId = id)).isSome) = true
          · exact Or.inr (by simp [Execute, hv, ha, hb])
          · exact Or.inl (by simp [Execute, hv, ha, hb])
        · exact Or.inl (by simp [Execute, hv, ha])
  · intro g i j hi hj
    rw [runWorkloadQueues_phase g i hi, runWorkloadQueues_phase g j hj]
    refine ⟨?_, ?_, ?_⟩ <;> intro hpi hpj <;>
      split_ifs at hpi hpj <;> omega

/-- C8 witness: the theorem instantiated at the sample engine; in the full
sample trace the input-binding workload (index 0) precedes the compute
workload (index 1). -/
theorem C8_witness :
    ((EnqueueWorkload sampleEngine [(0, 5)] [(1, 0)]).2.1 = [] ∨
     (EnqueueWorkload sampleEngine [(0, 5)] [(1, 0)]).2.1 =
       runWorkloadQueues sampleEngine.graph) ∧ 0 < 1 := by
  have h := C8_three_phase_order sampleEngine [(0, 5)] [(1, 0)] ⟨0⟩ [] []
  exact ⟨h.1, (h.2.2 sampleGraph 0 1 (by decide) (by decide)).1 rfl rfl⟩

/-- Well-formedness of one pin table: live pin ids are below the id
counter, logged unimports are below the id counter, Unimport has never run
on a live pin, and every id ever handed out is either live or unimported. -/
def PinTableWF (pins : List ImportedTensorHandlePin) (log : List Nat) (curId : Nat) : Prop :=
  (∀ p ∈ pins, p.importedId < curId) ∧
  (∀ id ∈ log, id < curId) ∧
  (∀ p ∈ pins, p.importedId ∉ log) ∧
  (∀ id : Nat, id < curId → (∃ p ∈ pins, p.importedId = id) ∨ id ∈ log)

/-- Well-formedness of both pin tables of the engine. -/
def PinTablesWF (e : LoadedNetwork) : Prop :=
  PinTableWF e.preImportedInputHandles e.unimportedInputIds e.curImportedInputId ∧
  PinTableWF e.preImportedOutputHandles e.unimportedOutputIds e.curImportedOutputId

/-- The ids of freshly created pins lie in the fresh id range. -/
lemma mkPins_id_bounds (bindings : List Nat) (startId : Nat) :
    ∀ p ∈ mkPins bindings startId,
      startId ≤ p.importedId ∧ p.importedId < startId + bindings.length := by
  induction bindings generalizing startId with
  | nil => intro p hp; simp [mkPins] at hp
  | cons b bs ih =>
      intro p hp
      rw [mkPins] at hp
      rcases List.mem_cons.mp hp with rfl | h2
      · simp
      · obtain ⟨h3, h4⟩ := ih (startId + 1) p h2
        simp only [List.length_cons]
        omega

/-- Every id in the fresh range is carried by some freshly created pin. -/
lemma mkPins_covers (bindings : List Nat) (startId id : Nat)
    (h1 : startId ≤ id) (h2 : id < startId + bindings.length) :
    ∃ p ∈ mkPins bindings startId, p.importedId = id := by
  induction bindings generalizing startId with
  | nil => simp at h2; omega
  | cons b bs ih =>
      by_cases hid : id = startId
      · exact ⟨{ importedId := startId, layerBindingId := b }, by rw [mkPins]; simp,
          by simp [hid]⟩
      · simp only [List.length_cons] at h2
        obtain ⟨p, hp, he⟩ := ih (startId + 1) (by omega) (by omega)
        exact ⟨p, by rw [mkPins]; exact List.mem_cons_of_mem _ hp, he⟩

/-- Importing a batch of tensors preserves pin-table well-formedness. -/
lemma pinTableWF_import (pins : List ImportedTensorHandlePin) (log : List Nat)
    (curId : Nat) (bindings : List Nat) (wf : PinTableWF pins log curId) :
    PinTableWF (pins ++ mkPins bindings curId) log (curId + bindings.length) := by
  obtain ⟨w1, w2, w3, w4⟩ := wf
  refine ⟨?_, ?_, ?_, ?_⟩
  · intro p hp
    rcases List.mem_append.mp hp with h | h
    · have := w1 p h; omega
    · exact (mkPins_id_bounds bindings curId p h).2
  · intro id hid
    have := w2 id hid
    omega
  · intro p hp
    rcases List.mem_append.mp hp with h | h
    · exact w3 p h
    · intro hin
      have hlog := w2 _ hin
      have hlow := (mkPins_id_bounds bindings curId p h).1
      omega
  · intro id hid
    by_cases h : id < curId
    · rcases w4 id h with ⟨p, hp, he⟩ | h2
      · exact Or.inl ⟨p, List.mem_append_left _ hp, he⟩
      · exact Or.inr h2
    · obtain ⟨p, hp, he⟩ := mkPins_covers bindings curId id (by omega) (by omega)
      exact Or.inl ⟨p, List.mem_append_right _ hp, he⟩

/-- Clearing a batch of pins preserves pin-table well-formedness. -/
lemma pinTableWF_clear (pins : List ImportedTensorHandlePin) (log : List Nat)
    (curId : Nat) (ids : List Nat) (wf : PinTableWF pins log curId) :
    PinTableWF (clearPins pins log ids).1 (clearPins pins log ids).2 curId := by
  obtain ⟨w1, w2, w3, w4⟩ := wf
  unfold clearPins
  refine ⟨?_, ?_, ?_, ?_⟩
  · intro p hp
    exact w1 p (List.mem_filter.mp hp).1
  · intro id hid
    rcases List.mem_append.mp hid with h | h
    · exact w2 id h
    · obtain ⟨p, hp, he⟩ := List.mem_map.mp h
      rw [← he]
      exact w1 p (List.mem_filter.mp hp).1
  · intro p hp hin
    have hkeep := List.mem_filter.mp hp
    rcases List.mem_append.mp hin with h | h
    · exact w3 p hkeep.1 h
    · obtain ⟨q, hq, he⟩ := List.mem_map.mp h
      have hq2 := List.mem_filter.mp hq
      have hnotin : p.importedId ∉ ids := by simpa using hkeep.2
      have hqin : q.importedId ∈ ids := by simpa using hq2.2
      rw [he] at hqin
      exact hnotin hqin
  · intro id hid
    rcases w4 id hid with ⟨p, hp, he⟩ | h
    · by_cases hmem : p.importedId ∈ ids
      · refine Or.inr (List.mem_append_right _ (List.mem_map.mpr
          ⟨p, List.mem_filter.mpr ⟨hp, by simpa using hmem⟩, he⟩))
      · exact Or.inl ⟨p, List.mem_filter.mpr ⟨hp, by simpa using hmem⟩, he⟩
    · exact Or.inr (List.mem_append_left _ h)

/-- The six pin-related state fields of the engine. -/
def pinState (e : LoadedNetwork) :
    List ImportedTensorHandlePin × List Nat × Nat ×
    List ImportedTensorHandlePin × List Nat × Nat :=
  (e.preImportedInputHandles, e.unimportedInputIds, e.curImportedInputId,
   e.preImportedOutputHandles, e.unimportedOutputIds, e.curImportedOutputId)

/-- Pin-table well-formedness transfers along equal pin state. -/
lemma pinTablesWF_of_pinState_eq (e e2 : LoadedNetwork)
    (h : pinState e2 = pinState e) (wf : PinTablesWF e) : PinTablesWF e2 := by
  unfold pinState at h
  simp only [Prod.mk.injEq] at h
  obtain ⟨h1, h2, h3, h4, h5, h6⟩ := h
  unfold PinTablesWF
  rw [h1, h2, h3, h4, h5, h6]
  exact wf

/-- Every external call preserves the well-formedness of both pin tables:
pins stay live exactly until released, and Unimport never runs on a live
pin. -/
lemma applyCall_pinTablesWF (e : LoadedNetwork) (wf : PinTablesWF e)
    (c : EngineCall) : PinTablesWF (applyCall e c) := by
  obtain ⟨wfIn, wfOut⟩ := wf
  cases c with
  | enqueue ins outs =>
      refine pinTablesWF_of_pinState_eq e _ ?_ ⟨wfIn, wfOut⟩
      cases hv : validateBindingIds e.graph ins outs <;>
        simp [applyCall, EnqueueWorkload, hv, pinState]
  | execute ins outs workingMemHandle preIns preOuts =>
      refine pinTablesWF_of_pinState_eq e _ ?_ ⟨wfIn, wfOut⟩
      cases hv : validateBindingIds e.graph ins outs
      · simp only [applyCall, Execute, hv]
        split_ifs <;> rfl
      · simp [applyCall, Execute, hv]
  | importIns ins =>
      by_cases hall : ins.all (fun t => t.1 ∈ e.graph.inputBindings) = true
      · have hpin := pinTableWF_import e.preImportedInputHandles e.unimportedInputIds
          e.curImportedInputId (ins.map Prod.fst) wfIn
        constructor
        · simp only [applyCall, ImportInputs, if_pos hall]
          simpa [List.length_map] using hpin
        · simp only [applyCall, ImportInputs, if_pos hall]
          exact wfOut
      · refine pinTablesWF_of_pinState_eq e _ ?_ ⟨wfIn, wfOut⟩
        simp [applyCall, ImportInputs, hall]
  | importOuts outs =>
      by_cases hall : outs.all (fun t => t.1 ∈ e.graph.outputBindings) = true
      · have hpin := pinTableWF_import e.preImportedOutputHandles e.unimportedOutputIds
          e.curImportedOutputId (outs.map Prod.fst) wfOut
        constructor
        · simp only [applyCall, ImportOutputs, if_pos hall]
          exact wfIn
        · simp only [applyCall, ImportOutputs, if_pos hall]
          simpa [List.length_map] using hpin
      · refine pinTablesWF_of_pinState_eq e _ ?_ ⟨wfIn, wfOut⟩
        simp [applyCall, ImportOutputs, hall]
  | clearIns ids =>
      by_cases hall : ids.all (fun id =>
          (e.preImportedInputHandles.find? (fun p => p.importedId = id)).isSome) = true
      · have hpin := pinTableWF_clear e.preImportedInputHandles e.unimportedInputIds
          e.curImportedInputId ids wfIn
        constructor
        · simp only [applyCall, ClearImportedInputs, if_pos hall]
          exact hpin
        · simp only [applyCall, ClearImportedInputs, if_pos hall]
          exact wfOut
      · refine pinTablesWF_of_pinState_eq e _ ?_ ⟨wfIn, wfOut⟩
        simp [applyCall, ClearImportedInputs, hall]
  | clearOuts ids =>
      by_cases hall : ids.all (fun id =>
          (e.preImportedOutputHandles.find? (fun p => p.importedId = id)).isSome) = true
      · have hpin := pinTableWF_clear e.preImportedOutputHandles e.unimportedOutputIds
          e.curImportedOutputId ids wfOut
        constructor
        · simp only [applyCall, ClearImportedOutputs, if_pos hall]
          exact wfIn
        · simp only [applyCall, ClearImportedOutputs, if_pos hall]
          exact hpin
      · refine pinTablesWF_of_pinState_eq e _ ?_ ⟨wfIn, wfOut⟩
        simp [applyCall, ClearImportedOutputs, hall]
  | freeWorkingMem =>
      refine pinTablesWF_of_pinState_eq e _ ?_ ⟨wfIn, wfOut⟩
      simp only [applyCall, FreeWorkingMemory]
      split_ifs <;> rfl

/-- FreeWorkingMemory does not touch the pin tables. -/
lemma freeWorkingMemory_pinState (e : LoadedNetwork) :
    pinState (FreeWorkingMemory e) = pinState e := by
  unfold FreeWorkingMemory pinState
  split_ifs <;> rfl

/-- C5: every import pin has Unimport called on its tensor handle exactly
when the pin is released: every external call keeps both pin tables
well-formed; on a well-formed engine no live pin has been unimported; a
successful ClearImportedInputs or ClearImportedOutputs call unimports the
named pins and drops them from its live table; and engine teardown drops
every remaining input and output pin and unimports each of them, so no
imported handle outlives its pin entry. -/
theorem C5_pins_unimported_on_release (e : LoadedNetwork) (wf : PinTablesWF e) :
    (∀ c : EngineCall, PinTablesWF (applyCall e c)) ∧
    (∀ p ∈ e.preImportedInputHandles, p.importedId ∉ e.unimportedInputIds) ∧
    (∀ p ∈ e.preImportedOutputHandles, p.importedId ∉ e.unimportedOutputIds) ∧
    (∀ inputIds, (ClearImportedInputs e inputIds).2 = .ok () →
       ∀ p ∈ e.preImportedInputHandles, p.importedId ∈ inputIds →
         p.importedId ∈ (ClearImportedInputs e inputIds).1.unimportedInputIds ∧
         ∀ q ∈ (ClearImportedInputs e inputIds).1.preImportedInputHandles,
           q.importedId ≠ p.importedId) ∧
    (∀ outputIds, (ClearImportedOutputs e outputIds).2 = .ok () →
       ∀ p ∈ e.preImportedOutputHandles, p.importedId ∈ outputIds →
         p.importedId ∈ (ClearImportedOutputs e outputIds).1.unimportedOutputIds ∧
         ∀ q ∈ (ClearImportedOutputs e outputIds).1.preImportedOutputHandles,
           q.importedId ≠ p.importedId) ∧
    ((destroyLoadedNetwork e).preImportedInputHandles = [] ∧
     (destroyLoadedNetwork e).preImportedOutputHandles = [] ∧
     (∀ p ∈ e.preImportedInputHandles,
        p.importedId ∈ (destroyLoadedNetwork e).unimportedInputIds) ∧
     (∀ p ∈ e.preImportedOutputHandles,
        p.importedId ∈ (destroyLoadedNetwork e).unimportedOutputIds)) := by
  obtain ⟨⟨wi1, wi2, wi3, wi4⟩, ⟨wo1, wo2, wo3, wo4⟩⟩ := wf
  refine ⟨?_, wi3, wo3, ?_, ?_, ?_⟩
  · intro c
    exact applyCall_pinTablesWF e ⟨⟨wi1, wi2, wi3, wi4⟩, ⟨wo1, wo2, wo3, wo4⟩⟩ c
  · intro inputIds hok p hp hpin
    by_cases hall : inputIds.all (fun id =>
        (e.preImportedInputHandles.find? (fun q => q.importedId = id)).isSome) = true
    · have h1 : (ClearImportedInputs e inputIds).1.unimportedInputIds =
          (clearPins e.preImportedInputHandles e.unimportedInputIds inputIds).2 := by
        simp [ClearImportedInputs, hall]
      have h2 : (ClearImportedInputs e inputIds).1.preImportedInputHandles =
          (clearPins e.preImportedInputHandles e.unimportedInputIds inputIds).1 := by
        simp [ClearImportedInputs, hall]
      constructor
      · rw [h1]
        unfold clearPins
        exact List.mem_append_right _ (List.mem_map.mpr
          ⟨p, List.mem_filter.mpr ⟨hp, by simpa using hpin⟩, rfl⟩)
      · intro q hq
        rw [h2] at hq
        unfold clearPins at hq
        have hq2 : q.importedId ∉ inputIds := by
          simpa using (List.mem_filter.mp hq).2
        intro hcontra
        rw [hcontra] at hq2
        exact hq2 hpin
    · exfalso
      simp [ClearImportedInputs, hall] at hok
  · intro outputIds hok p hp hpin
    by_cases hall : outputIds.all (fun id =>
        (e.preImportedOutputHandles.find? (fun q => q.importedId = id)).isSome) = true
    · have h1 : (ClearImportedOutputs e outputIds).1.unimportedOutputIds =
          (clearPins e.preImportedOutputHandles e.unimportedOutputIds outputIds).2 := by
        simp [ClearImportedOutputs, hall]
      have h2 : (ClearImportedOutputs e outputIds).1.preImportedOutputHandles =
          (clearPins e.preImportedOutputHandles e.unimportedOutputIds outputIds).1 := by
        simp [ClearImportedOutputs, hall]
      constructor
      · rw [h1]
        unfold clearPins
        exact List.mem_append_right _ (List.mem_map.mpr
          ⟨p, List.mem_filter.mpr ⟨hp, by simpa using hpin⟩, rfl⟩)
      · intro q hq
        rw [h2] at hq
        unfold clearPins at hq
        have hq2 : q.importedId ∉ outputIds := by
          simpa using (List.mem_filter.mp hq).2
        intro hcontra
        rw [hcontra] at hq2
        exact hq2 hpin
    · exfalso
      simp [ClearImportedOutputs, hall] at hok
  · have hfree := freeWorkingMemory_pinState e
    simp only [pinState, Prod.mk.injEq] at hfree
    obtain ⟨f1, f2, _, f4, f5, _⟩ := hfree
    refine ⟨rfl, rfl, ?_, ?_⟩
    · intro p hp
      show p.importedId ∈ (releaseAllPins (FreeWorkingMemory e)).unimportedInputIds
      unfold releaseAllPins
      rw [f1, f2]
      exact List.mem_append_right _ (List.mem_map.mpr ⟨p, hp, rfl⟩)
    · intro p hp
      show p.importedId ∈ (releaseAllPins (FreeWorkingMemory e)).unimportedOutputIds
      unfold releaseAllPins
      rw [f4, f5]
      exact List.mem_append_right _ (List.mem_map.mpr ⟨p, hp, rfl⟩)

/-- The freshly loaded sample engine has well-formed pin tables. -/
lemma sampleEngine_pinTablesWF : PinTablesWF sampleEngine := by
  constructor <;>
    exact ⟨by simp [sampleEngine], by simp [sampleEngine], by simp [sampleEngine],
      by intro id h; simp [sampleEngine] at h⟩

/-- C5 witness: tearing down the sample engine leaves no live input pin. -/
theorem C5_witness :
    (destroyLoadedNetwork sampleEngine).preImportedInputHandles = [] :=
  (C5_pins_unimported_on_release sampleEngine sampleEngine_pinTablesWF).2.2.2.2.2.1

end Armnn
